import Mathlib

/-!
Verification of the clinica_bot repository: a shallow embedding of the
availability engine (bot/calendar_service.py) and of the dialogue state
machine (bot/handlers.py), with theorems settling the specified properties.

Times within one day are modelled as minutes since the local midnight of the
date under consideration (a `Nat`); calendar days are modelled as absolute
day numbers (a `Nat`) whose weekday is the day number modulo 7, with the
convention that day number 0 falls on a Monday (matching Python, where
`weekday()` is 0 for Monday and 5, 6 are Saturday and Sunday).
-/

namespace ClinicaBot

/-- One endpoint of a Google Calendar event, mirroring
`event['start'].get('dateTime', event['start'].get('date'))` in
`get_available_slots`: a timed event carries a `dateTime` field whose
`datetime.fromisoformat` parse is timezone-aware, while an all-day event
carries only a `date` field whose parse is timezone-naive.  The payload is
the instant in minutes since the local midnight of the queried date. -/
inductive EvTime where
  | dateTime (minutes : Nat)
  | dateOnly (minutes : Nat)
deriving DecidableEq, Repr

/-- A calendar event as consumed by `get_available_slots`: a start endpoint
and an end endpoint (the Python dict keys `start` and `end`; `end` is a
reserved word in Lean, so the second field is named `stop`). -/
structure GEvent where
  start : EvTime
  stop : EvTime
deriving DecidableEq, Repr

/-- Parse an event endpoint the way the Python code does: the minutes value
together with a flag telling whether the resulting datetime is
timezone-aware (`dateTime` field) or naive (`date` field). -/
def parseEv : EvTime → Nat × Bool
  | .dateTime m => (m, true)
  | .dateOnly m => (m, false)

/-- Python comparison `a <= b` on datetimes: defined when both operands have
the same awareness, and a `TypeError` (modelled as `none`) when an aware
datetime is compared with a naive one. -/
def pyLe (a b : Nat × Bool) : Option Bool :=
  if a.2 = b.2 then some (decide (a.1 ≤ b.1)) else none

/-- The slot grid loop of `get_available_slots`, with explicit fuel:
`while current_slot < end_time: all_slots.append(current_slot);
current_slot += slot_duration`. -/
def slotGridAux : Nat → Nat → Nat → Nat → List Nat
  | 0, _, _, _ => []
  | fuel + 1, cur, stop, dur =>
    if cur < stop then cur :: slotGridAux fuel (cur + dur) stop dur else []

/-- The full grid of candidate slot starts from `start` stepping by `dur`
while below `stop`.  `stop - start` units of fuel are exactly enough for a
positive step; the source loop does not terminate for a zero step, so the
grid is defined only for positive durations (and empty otherwise). -/
def slotGrid (start stop dur : Nat) : List Nat :=
  if 0 < dur then slotGridAux (stop - start) start stop dur else []

/-- The inner event loop of `get_available_slots` for one candidate slot:
`for event in events: if not (slot_end <= event_start or slot >= event_end):
is_available = False; break`.  The slot endpoints are timezone-aware; a
comparison against a naive (all-day) endpoint raises, modelled as `none`.
Python's `or` short-circuits and the loop breaks on the first overlap, so
later events are not examined after a decision is reached. -/
def slotAvailable (slot dur : Nat) : List GEvent → Option Bool
  | [] => some true
  | e :: rest =>
    match pyLe (slot + dur, true) (parseEv e.start) with
    | none => none
    | some true => slotAvailable slot dur rest
    | some false =>
      match pyLe (parseEv e.stop) (slot, true) with
      | none => none
      | some true => slotAvailable slot dur rest
      | some false => some false

/-- The outer slot loop of `get_available_slots`: keep the available slots
of the grid, in order; a raised comparison error aborts the whole call. -/
def availLoop (events : List GEvent) (dur : Nat) : List Nat → Option (List Nat)
  | [] => some []
  | s :: rest =>
    match slotAvailable s dur events with
    | none => none
    | some true =>
      match availLoop events dur rest with
      | none => none
      | some l => some (s :: l)
    | some false => availLoop events dur rest

/-- `CalendarService.get_available_slots(date, slot_duration=30,
work_start=9, work_end=17)`: working hours are the given hours of the date,
the grid of `slot_duration`-minute slots is generated from work start while
below work end, slots overlapping some event are dropped, and the result is
truncated to the first 3 entries.  The events argument stands for what
`_get_events` returned for the day; `none` models an uncaught exception
raised while comparing slot and event datetimes. -/
def get_available_slots (events : List GEvent)
    (slot_duration work_start work_end : Nat) : Option (List Nat) :=
  let start_time := work_start * 60
  let end_time := work_end * 60
  let all_slots := slotGrid start_time end_time slot_duration
  (availLoop events slot_duration all_slots).map (fun l => l.take 3)

/-- The day loop of `CalendarService.get_available_dates`: for each day
offset, skip the day when its weekday is Saturday (5) or Sunday (6),
otherwise compute the day's available slots (with the default arguments
30, 9, 17) and keep the day when they are non-empty.  An exception raised
by `get_available_slots` propagates (there is no handler in the source). -/
def datesLoop (today : Nat) (events_of : Nat → List GEvent) :
    List Nat → Option (List Nat)
  | [] => some []
  | k :: rest =>
    let d := today + k
    if 5 ≤ d % 7 then datesLoop today events_of rest
    else
      match get_available_slots (events_of d) 30 9 17 with
      | none => none
      | some slots =>
        match datesLoop today events_of rest with
        | none => none
        | some ds => some (if slots.isEmpty then ds else d :: ds)

/-- `CalendarService.get_available_dates(days_ahead)`: iterate day offsets
1 .. days_ahead from today (the reference midnight), keep non-weekend days
with at least one available slot, and truncate to the first 3 dates.
`events_of` gives the busy events of each candidate day. -/
def get_available_dates (today : Nat) (events_of : Nat → List GEvent)
    (days_ahead : Nat) : Option (List Nat) :=
  (datesLoop today events_of (List.range' 1 days_ahead)).map (fun l => l.take 3)

/-- `CalendarService._get_events`: the events-list call is wrapped in
`try/except`; a successful fetch returns its items and any raised error is
caught and turned into the empty list.  The collaborator outcome is the
argument. -/
def get_events (fetch_result : Except String (List GEvent)) : List GEvent :=
  match fetch_result with
  | .ok events => events
  | .error _ => []

/-- `CalendarService.create_appointment`: the insert call is wrapped in
`try/except`; a successful insert returns the created event (its id,
modelled as a `Nat`) and any raised error is caught and turned into `None`.
The collaborator outcome is the argument. -/
def create_appointment (insert_result : Except String Nat) : Option Nat :=
  match insert_result with
  | .ok ev => some ev
  | .error _ => none

/-- The pure availability predicate the source filter computes on timed
events: slot `[s, s + dur)` is kept iff for every busy pair `(b0, b1)`,
`s + dur ≤ b0` or `b1 ≤ s`. -/
def overlapFree (s dur : Nat) (busy : List (Nat × Nat)) : Bool :=
  busy.all fun b => decide (s + dur ≤ b.1) || decide (b.2 ≤ s)

/-- An event is timed when both endpoints carry a `dateTime` field (so both
parse to timezone-aware datetimes). -/
def isTimed (e : GEvent) : Bool :=
  match e.start, e.stop with
  | .dateTime _, .dateTime _ => true
  | _, _ => false

/-- The minute endpoints of an event, forgetting awareness. -/
def evMins (e : GEvent) : Nat × Nat := ((parseEv e.start).1, (parseEv e.stop).1)

/-- Python `str.strip()`: remove whitespace from both ends. -/
def pyStrip (s : String) : String :=
  String.mk (((s.data.dropWhile Char.isWhitespace).reverse.dropWhile
    Char.isWhitespace).reverse)

/-- Python `str.lower()`: lowercase each character (the source keywords are
matched after this transformation). -/
def pyLower (s : String) : String := String.mk (s.data.map Char.toLower)

/-- Python `str.isdigit()`: non-empty and all characters are digits. -/
def pyIsDigit (s : String) : Bool := !s.data.isEmpty && s.data.all Char.isDigit

/-- List-of-characters core of `str.startswith`. -/
def startsWithList : List Char → List Char → Bool
  | _, [] => true
  | [], _ :: _ => false
  | a :: as, b :: bs => a = b && startsWithList as bs

/-- Python `s.startswith(pre)`. -/
def pyStartsWith (s pre : String) : Bool := startsWithList s.data pre.data

/-- List-of-characters core of `str.split(sep)` for a one-character
separator: the groups of characters between occurrences of the separator. -/
def splitList (sep : Char) : List Char → List (List Char)
  | [] => [[]]
  | c :: cs =>
    match splitList sep cs with
    | [] => [[]]
    | g :: gs => if c = sep then [] :: g :: gs else (c :: g) :: gs

/-- Python `s.split(sep)` for a one-character separator. -/
def pySplit (sep : Char) (s : String) : List String :=
  (splitList sep s.data).map String.mk

/-- The dialogue step of a caller session: the values the source stores in
`state['step']`. -/
inductive Step where
  | menu
  | get_patient_name
  | select_date
  | select_time
  | confirm
deriving DecidableEq, Repr

/-- Position of a step along the booking chain
MENU → AWAITING_NAME → SELECT_DATE → SELECT_TIME → CONFIRM. -/
def stepIdx : Step → Nat
  | .menu => 0
  | .get_patient_name => 1
  | .select_date => 2
  | .select_time => 3
  | .confirm => 4

/-- A caller session: the conversation-state dict stored per caller in
`MessageHandler.conversations`.  Keys absent from the Python dict are
`none` (or the empty mapping); dates and times are day numbers and minutes
as in the availability engine. -/
structure Session where
  step : Step
  appointment_type : Option String
  appointment_name : Option String
  patient_name : Option String
  available_dates : List (String × Nat)
  selected_date : Option Nat
  available_times : List (String × Nat)
  selected_time : Option Nat
deriving DecidableEq, Repr

/-- The fresh session `{'step': 'menu'}` the source creates for an unseen
caller and stores on a reset keyword: every other key is absent. -/
def defaultSession : Session :=
  { step := .menu
    appointment_type := none
    appointment_name := none
    patient_name := none
    available_dates := []
    selected_date := none
    available_times := []
    selected_time := none }

/-- The distinct outbound message bodies of handlers.py, one constructor
per source string; interpolated fragments are carried as arguments. -/
inductive Body where
  | mainMenu
  | askName
  | officeHours
  | chooseValidOption
  | noDatesAvailable
  | chooseDate (name : String)
  | errorFetchingDates
  | chooseValidDate
  | noTimesAvailable
  | chooseTime (formatted_date : String)
  | errorFetchingTimes
  | chooseValidTime
  | confirmSummary (patient service fdate ftime : String)
  | bookingConfirmed (patient service fdate ftime : String)
  | bookingFailed
  | bookingCancelled
  | fallback
deriving DecidableEq, Repr

/-- A selectable option: the dicts `{'id': ..., 'title': ...}` the source
puts in the `buttons` list of a response. -/
structure Button where
  id : String
  title : String
deriving DecidableEq, Repr

/-- The response dict of `process_message`: `{'action': 'send_text',
'body': ...}` or `{'action': 'send_buttons', 'body': ..., 'buttons': ...}`. -/
inductive Response where
  | sendText (body : Body)
  | sendButtons (body : Body) (buttons : List Button)
deriving DecidableEq, Repr

/-- The calendar collaborator as the handlers see it: the outcomes of the
`CalendarService` calls made during one turn.  `none` in a fetch outcome
models a raised exception (caught by the handlers' `try/except`);
`create_appointment` never raises past its own boundary, so its outcome is
already an `Option`.  The formatters stand for `format_date`/`format_time`. -/
structure Calendar where
  dates_outcome : Option (List Nat)
  slots_outcome : Nat → Option (List Nat)
  insert_outcome : String → String → String → Nat → Option Nat
  format_date : Nat → String
  format_time : Nat → String

/-- The process-wide mutable state of `MessageHandler`: the conversation
store `conversations` and the per-caller index map `button_mappings`
(never written by handlers.py itself; the transport records offered
options into it). -/
structure HState where
  conversations : String → Option Session
  button_mappings : String → String → Option String

/-- Store `conversations[from_number] = sess`. -/
def setConv (st : HState) (from_number : String) (sess : Session) : HState :=
  { st with conversations :=
      fun k => if k = from_number then some sess else st.conversations k }

/-- The reset-keyword set of `process_message`. -/
def keywords : List String := ["menu", "start", "hello", "hi", "olá", "oi"]

/-- `MessageHandler._show_main_menu`: the fixed menu response with the two
service options and the office-hours option. -/
def show_main_menu : Response :=
  .sendButtons .mainMenu
    [⟨"appointment_1", "Consulta Geral"⟩,
     ⟨"appointment_2", "Consulta Especializada"⟩,
     ⟨"office_hours", "Horário de Atendimento"⟩]

/-- `MessageHandler._handle_main_menu`: a service option stores the
appointment type and a fresh session at the name-collection step; the
office-hours option and unrecognized input answer with a text and leave the
store untouched. -/
def handle_main_menu (st : HState) (from_number : String)
    (button_id : Option String) : HState × Response :=
  if button_id = some "appointment_1" ∨ button_id = some "appointment_2" then
    let aname :=
      if button_id = some "appointment_1" then "Consulta Geral"
      else "Consulta Especializada"
    let sess : Session :=
      { defaultSession with
          step := .get_patient_name
          appointment_type := button_id
          appointment_name := some aname }
    (setConv st from_number sess, .sendText .askName)
  else if button_id = some "office_hours" then (st, .sendText .officeHours)
  else (st, .sendText .chooseValidOption)

/-- `MessageHandler._handle_patient_name`: store the raw message as the
patient name, advance to date selection, then ask the availability engine
for dates; an empty result or a raised fetch error answer with a text while
the stored step stays at date selection. -/
def handle_patient_name (cal : Calendar) (st : HState)
    (from_number name : String) : HState × Response :=
  let state0 := (st.conversations from_number).getD defaultSession
  let state1 := { state0 with patient_name := some name, step := .select_date }
  let st1 := setConv st from_number state1
  match cal.dates_outcome with
  | none => (st1, .sendText .errorFetchingDates)
  | some [] => (st1, .sendText .noDatesAvailable)
  | some (d :: ds) =>
    let dates := d :: ds
    let date_map := (List.enumFrom 1 dates).map fun p => (toString p.1, p.2)
    let buttons := (List.enumFrom 1 dates).map fun p =>
      Button.mk ("date_" ++ toString p.1) (cal.format_date p.2)
    let state2 := { state1 with available_dates := date_map }
    (setConv st1 from_number state2, .sendButtons (.chooseDate name) buttons)

/-- Association-list lookup for the `available_dates`/`available_times`
dicts. -/
def lookupIdx (m : List (String × Nat)) (k : String) : Option Nat :=
  match m with
  | [] => none
  | (k2, v) :: rest => if k2 = k then some v else lookupIdx rest k

/-- The date-index extraction of `_handle_date_selection`: a button id
starting with `date_` yields `button_id.split('_')[1]`; otherwise an
all-digit message yields the message itself. -/
def date_idx_of (button_id : Option String) (message : String) : Option String :=
  match button_id with
  | some b =>
    if pyStartsWith b "date_" then some ((pySplit '_' b).getD 1 "")
    else if pyIsDigit message then some message else none
  | none => if pyIsDigit message then some message else none

/-- The time-index extraction of `_handle_time_selection`, with the `time_`
prefix. -/
def time_idx_of (button_id : Option String) (message : String) : Option String :=
  match button_id with
  | some b =>
    if pyStartsWith b "time_" then some ((pySplit '_' b).getD 1 "")
    else if pyIsDigit message then some message else none
  | none => if pyIsDigit message then some message else none

/-- `MessageHandler._handle_date_selection`: resolve the date index; an
unresolved or unknown index answers with a corrective text and changes
nothing; a valid index stores the selected date, advances to time
selection, and asks the availability engine for the day's slots. -/
def handle_date_selection (cal : Calendar) (st : HState)
    (from_number message : String) (button_id : Option String) :
    HState × Response :=
  let state0 := (st.conversations from_number).getD defaultSession
  match date_idx_of button_id message with
  | none => (st, .sendText .chooseValidDate)
  | some idx =>
    match lookupIdx state0.available_dates idx with
    | none => (st, .sendText .chooseValidDate)
    | some selected =>
      let state1 :=
        { state0 with selected_date := some selected, step := .select_time }
      let st1 := setConv st from_number state1
      match cal.slots_outcome selected with
      | none => (st1, .sendText .errorFetchingTimes)
      | some [] => (st1, .sendText .noTimesAvailable)
      | some (t :: ts) =>
        let slots := t :: ts
        let time_map := (List.enumFrom 1 slots).map fun p => (toString p.1, p.2)
        let buttons := (List.enumFrom 1 slots).map fun p =>
          Button.mk ("time_" ++ toString p.1) (cal.format_time p.2)
        let state2 := { state1 with available_times := time_map }
        (setConv st1 from_number state2,
          .sendButtons (.chooseTime (cal.format_date selected)) buttons)

/-- `MessageHandler._handle_time_selection`: resolve the time index; an
unresolved or unknown index answers with a corrective text and changes
nothing; a valid index stores the selected time, advances to confirmation,
and answers with the booking summary and the confirm/cancel options. -/
def handle_time_selection (cal : Calendar) (st : HState)
    (from_number message : String) (button_id : Option String) :
    HState × Response :=
  let state0 := (st.conversations from_number).getD defaultSession
  match time_idx_of button_id message with
  | none => (st, .sendText .chooseValidTime)
  | some idx =>
    match lookupIdx state0.available_times idx with
    | none => (st, .sendText .chooseValidTime)
    | some selected =>
      let state1 :=
        { state0 with selected_time := some selected, step := .confirm }
      let st1 := setConv st from_number state1
      (st1,
        .sendButtons
          (.confirmSummary (state0.patient_name.getD "")
            (state0.appointment_name.getD "")
            (cal.format_date (state0.selected_date.getD 0))
            (cal.format_time selected))
          [⟨"confirm_yes", "Sim, confirmar"⟩, ⟨"confirm_no", "Cancelar"⟩])

/-- `MessageHandler._handle_confirmation`.  The source file ends mid-string
inside the success branch of this handler; the visible part covers the
trigger condition (`button_id == 'confirm_yes' or message == '1'`), the
`create_appointment` call and the test on its result.  Modelled from the
spec: the remainder of the handler — on a successful write, a success
summary is returned and the step resets to MENU; on a failed write, an
apology is returned with the step unchanged; `confirm_no` returns a
cancellation text and resets the step to MENU; any other input falls
through to the generic fallback. -/
def handle_confirmation (cal : Calendar) (st : HState)
    (from_number message : String) (button_id : Option String) :
    HState × Response :=
  let state0 := (st.conversations from_number).getD defaultSession
  if button_id = some "confirm_yes" ∨ message = "1" then
    match cal.insert_outcome (state0.patient_name.getD "") from_number
        (state0.appointment_name.getD "") (state0.selected_time.getD 0) with
    | some _ =>
      (setConv st from_number { state0 with step := .menu },
        .sendText (.bookingConfirmed (state0.patient_name.getD "")
          (state0.appointment_name.getD "")
          (cal.format_date (state0.selected_date.getD 0))
          (cal.format_time (state0.selected_time.getD 0))))
    | none => (st, .sendText .bookingFailed)
  else if button_id = some "confirm_no" then
    (setConv st from_number { state0 with step := .menu },
      .sendText .bookingCancelled)
  else (st, .sendText .fallback)

/-- `MessageHandler.process_message`: trim and lowercase the message; a
reset keyword stores a fresh MENU session and returns the main menu;
otherwise the button id is recovered from the caller's index map and the
message is dispatched on the stored step (an unseen caller defaults to
`{'step': 'menu'}`).  The source's trailing fallback return is unreachable:
every stored step is one of the five dispatched values. -/
def process_message (cal : Calendar) (st : HState)
    (from_number message_body : String) : HState × Response :=
  let message := pyLower (pyStrip message_body)
  let state := (st.conversations from_number).getD defaultSession
  if message ∈ keywords then
    (setConv st from_number defaultSession, show_main_menu)
  else
    let button_id := st.button_mappings from_number message
    match state.step with
    | .menu => handle_main_menu st from_number button_id
    | .get_patient_name => handle_patient_name cal st from_number message_body
    | .select_date => handle_date_selection cal st from_number message button_id
    | .select_time => handle_time_selection cal st from_number message button_id
    | .confirm => handle_confirmation cal st from_number message button_id

/-- A concrete calendar collaborator used to exercise the handlers on
explicit inputs. -/
def calW : Calendar :=
  { dates_outcome := some []
    slots_outcome := fun _ => some [540]
    insert_outcome := fun _ _ _ _ => none
    format_date := fun _ => ""
    format_time := fun _ => "" }

/-- The handler state before any message: both stores empty. -/
def emptyHState : HState :=
  { conversations := fun _ => none, button_mappings := fun _ _ => none }

/-- A session waiting at date selection, offering one date (day 7) under
index "1". -/
def sessDate : Session :=
  { defaultSession with step := .select_date, available_dates := [("1", 7)] }

/-- A handler state where caller "c" sits at date selection and the index
map of the last prompt maps the numeral label "1" to the option id
`date_1`. -/
def stDate : HState :=
  { conversations := fun k => if k = "c" then some sessDate else none
    button_mappings := fun k m =>
      if k = "c" then (if m = "1" then some "date_1" else none) else none }

/-- A session waiting at time selection, offering one time (600 minutes)
under index "1". -/
def sessTime : Session :=
  { defaultSession with step := .select_time, available_times := [("1", 600)] }

/-- A handler state where caller "c" sits at time selection with an empty
index map. -/
def stTime : HState :=
  { conversations := fun k => if k = "c" then some sessTime else none
    button_mappings := fun _ _ => none }

/-- A busy schedule with no events on any day. -/
def noEvents : Nat → List GEvent := fun _ => []

/-- C7: failures of the calendar collaborator are caught at the
collaborator boundary: a fetch error makes the busy-interval listing
return the empty sequence, and an insert error makes the appointment
creation return the failure value `none`; successful outcomes pass
through unchanged.  Totality of the two functions embeds the fact that no
exception propagates past the boundary. -/
theorem collaborator_failures_caught :
    (∀ msg : String, get_events (.error msg) = []) ∧
    (∀ events : List GEvent, get_events (.ok events) = events) ∧
    (∀ msg : String, create_appointment (.error msg) = none) ∧
    (∀ ev : Nat, create_appointment (.ok ev) = some ev) :=
  ⟨fun _ => rfl, fun _ => rfl, fun _ => rfl, fun _ => rfl⟩

/-- C8: evaluating the slot computation on a busy list holding one all-day
event covering the date (naive endpoints at minutes 0 and 1440) does not
return the empty list: the first slot comparison mixes an aware slot
datetime with the naive parse of the `date` field, which raises a
`TypeError` in the source (modelled as `none`), so the call raises instead
of returning the fully blocked grid. -/
theorem all_day_event_raises :
    get_available_slots [⟨.dateOnly 0, .dateOnly 1440⟩] 30 9 17 = none := by
  decide

/-- C2 counterexample: with work hours 9 to 17 and a 50-minute slot
duration (which does not divide the 480-minute window), the slot starting
at minute 990 is generated and survives filtering (a busy event
[540, 990) blocks all earlier slots, so 990 is returned), yet its end
990 + 50 = 1040 exceeds the work end 17 * 60 = 1020. -/
theorem slot_overruns_work_end :
    get_available_slots [⟨.dateTime 540, .dateTime 990⟩] 50 9 17 = some [990] ∧
    17 * 60 < 990 + 50 := by
  decide

/-- Every element of the fueled grid loop lies at or after the cursor,
strictly before the stop time, and at a multiple of the step from the
cursor. -/
theorem mem_slotGridAux (fuel : Nat) :
    ∀ (cur stop dur s : Nat), s ∈ slotGridAux fuel cur stop dur →
      cur ≤ s ∧ s < stop ∧ dur ∣ (s - cur) := by
  induction fuel with
  | zero => intro cur stop dur s h; simp [slotGridAux] at h
  | succ n ih =>
    intro cur stop dur s h
    simp only [slotGridAux] at h
    by_cases hlt : cur < stop
    · rw [if_pos hlt] at h
      rcases List.mem_cons.mp h with rfl | hmem
      · exact ⟨Nat.le_refl _, hlt, by simp⟩
      · obtain ⟨h1, h2, k, hk⟩ := ih (cur + dur) stop dur s hmem
        refine ⟨by omega, h2, k + 1, ?_⟩
        rw [Nat.mul_succ]
        omega
    · rw [if_neg hlt] at h
      simp at h

/-- C2 amended: every slot of the generated grid starts inside the working
window (`start ≤ s < stop`); its end is additionally bounded by the work
end whenever the slot duration divides the window width (in particular for
the default 30-minute slots between 9 * 60 and 17 * 60), but not in
general. -/
theorem grid_slots_in_window (dur start stop s : Nat)
    (h : s ∈ slotGrid start stop dur) :
    (start ≤ s ∧ s < stop) ∧ (dur ∣ stop - start → s + dur ≤ stop) := by
  unfold slotGrid at h
  by_cases hd : 0 < dur
  · rw [if_pos hd] at h
    obtain ⟨h1, h2, hdvd⟩ := mem_slotGridAux _ _ _ _ _ h
    refine ⟨⟨h1, h2⟩, fun hwin => ?_⟩
    have hds : dur ∣ stop - s := by
      have heq : stop - s = (stop - start) - (s - start) := by omega
      rw [heq]
      exact Nat.dvd_sub' hwin hdvd
    have : dur ≤ stop - s := Nat.le_of_dvd (by omega) hds
    omega
  · rw [if_neg hd] at h
    simp at h

/-- Witness for the amended C2 theorem at the source defaults: minute 540
is in the grid of 30-minute slots between 540 and 1020, and its end stays
within the window since 30 divides 480. -/
theorem grid_slots_in_window_witness :
    (540 ≤ 540 ∧ 540 < 1020) ∧ 540 + 30 ≤ 1020 :=
  ⟨(grid_slots_in_window 30 540 1020 540 (by decide)).1,
   (grid_slots_in_window 30 540 1020 540 (by decide)).2 (by decide)⟩

/-- On a list of timed events the per-slot event loop never raises and
computes exactly the pure no-overlap predicate. -/
theorem slotAvailable_timed (s dur : Nat) :
    ∀ events : List GEvent, (∀ e ∈ events, isTimed e = true) →
      slotAvailable s dur events =
        some (overlapFree s dur (events.map evMins)) := by
  intro events h
  induction events with
  | nil => simp [slotAvailable, overlapFree]
  | cons e rest ih =>
    have he : isTimed e = true := h e (by simp)
    have hrest : ∀ e2 ∈ rest, isTimed e2 = true := fun e2 h2 => h e2 (by simp [h2])
    obtain ⟨es, ee⟩ := e
    cases es with
    | dateOnly a => simp [isTimed] at he
    | dateTime a =>
      cases ee with
      | dateOnly b => simp [isTimed] at he
      | dateTime b =>
        simp only [slotAvailable, pyLe, parseEv, if_pos rfl]
        by_cases h1 : s + dur ≤ a
        · simp [h1, ih hrest, overlapFree, evMins, parseEv]
        · by_cases h2 : b ≤ s
          · simp [h1, h2, ih hrest, overlapFree, evMins, parseEv]
          · simp [h1, h2, overlapFree, evMins, parseEv]

/-- On a list of timed events the outer slot loop never raises and keeps
exactly the slots satisfying the pure no-overlap predicate, in order. -/
theorem availLoop_timed (dur : Nat) (events : List GEvent)
    (h : ∀ e ∈ events, isTimed e = true) :
    ∀ l : List Nat, availLoop events dur l =
      some (l.filter fun s => overlapFree s dur (events.map evMins)) := by
  intro l
  induction l with
  | nil => simp [availLoop]
  | cons s rest ih =>
    simp only [availLoop, slotAvailable_timed s dur events h]
    cases hov : overlapFree s dur (events.map evMins) with
    | true => simp [ih, List.filter_cons, hov]
    | false => simp [ih, List.filter_cons, hov]

/-- C1: on timed busy intervals, the slot computation returns exactly the
generated grid filtered by the no-overlap condition and truncated to 3
entries; a slot passes the filter iff for every busy interval `(b0, b1)`
either `s + dur ≤ b0` or `b1 ≤ s`; and a slot whose end coincides with a
busy start satisfies the condition (half-open semantics). -/
theorem slots_filter_characterization (events : List GEvent)
    (dur ws we : Nat) (h : ∀ e ∈ events, isTimed e = true) :
    get_available_slots events dur ws we =
      some (((slotGrid (ws * 60) (we * 60) dur).filter
        (fun s => overlapFree s dur (events.map evMins))).take 3) ∧
    (∀ s : Nat, overlapFree s dur (events.map evMins) = true ↔
      ∀ b ∈ events.map evMins, s + dur ≤ b.1 ∨ b.2 ≤ s) ∧
    (∀ s b1 : Nat, overlapFree s dur [(s + dur, b1)] = true) := by
  refine ⟨?_, ?_, ?_⟩
  · simp [get_available_slots, availLoop_timed dur events h]
  · intro s
    simp [overlapFree, List.all_eq_true, Decidable.or_iff_not_imp_left]
  · intro s b1
    simp [overlapFree]

/-- Witness for C1 on one timed event [600, 630): the grid slot 600 is
blocked, slot 630 (whose start equals the busy end) and slot 540, 570 are
kept, and the result is truncated to the first three available slots. -/
theorem slots_filter_characterization_witness :
    get_available_slots [⟨.dateTime 600, .dateTime 630⟩] 30 9 17 =
      some [540, 570, 630] :=
  ((slots_filter_characterization [⟨.dateTime 600, .dateTime 630⟩] 30 9 17
    (by decide)).1).trans (by decide)

/-- Every date collected by the day loop comes from one of the offered day
offsets, is not a Saturday or Sunday, and has a non-empty slot list. -/
theorem datesLoop_sound (today : Nat) (f : Nat → List GEvent) :
    ∀ (l ds : List Nat), datesLoop today f l = some ds →
      ∀ d ∈ ds, (∃ k ∈ l, d = today + k) ∧ d % 7 < 5 ∧
        ∃ slots, get_available_slots (f d) 30 9 17 = some slots ∧ slots ≠ [] := by
  intro l
  induction l with
  | nil =>
    intro ds h d hd
    simp only [datesLoop, Option.some.injEq] at h
    subst h
    simp at hd
  | cons k rest ih =>
    intro ds h d hd
    simp only [datesLoop] at h
    by_cases hw : 5 ≤ (today + k) % 7
    · rw [if_pos hw] at h
      obtain ⟨⟨k2, hk2, hd2⟩, hrest⟩ := ih ds h d hd
      exact ⟨⟨k2, List.mem_cons_of_mem _ hk2, hd2⟩, hrest⟩
    · rw [if_neg hw] at h
      rcases hslots : get_available_slots (f (today + k)) 30 9 17 with _ | slots
      · simp only [hslots] at h
        exact Option.noConfusion h
      · simp only [hslots] at h
        rcases hrec : datesLoop today f rest with _ | ds2
        · simp only [hrec] at h
          exact Option.noConfusion h
        · simp only [hrec, Option.some.injEq] at h
          subst h
          by_cases hemp : slots.isEmpty
          · rw [if_pos hemp] at hd
            obtain ⟨⟨k2, hk2, hd2⟩, hrest⟩ := ih ds2 hrec d hd
            exact ⟨⟨k2, List.mem_cons_of_mem _ hk2, hd2⟩, hrest⟩
          · rw [if_neg hemp] at hd
            rcases List.mem_cons.mp hd with rfl | hmem
            · refine ⟨⟨k, List.mem_cons_self _ _, rfl⟩, by omega, slots, hslots, ?_⟩
              intro hnil
              exact hemp (by simp [hnil])
            · obtain ⟨⟨k2, hk2, hd2⟩, hrest⟩ := ih ds2 hrec d hmem
              exact ⟨⟨k2, List.mem_cons_of_mem _ hk2, hd2⟩, hrest⟩

/-- C4: whenever the date search returns a list, that list has at most 3
entries and each returned date lies strictly between the reference day and
the reference day plus the horizon plus one, is neither a Saturday (5) nor
a Sunday (6) modulo 7, and has a non-empty available-slot list. -/
theorem available_dates_bounds (today : Nat) (f : Nat → List GEvent)
    (n : Nat) (L : List Nat) (h : get_available_dates today f n = some L) :
    L.length ≤ 3 ∧ ∀ d ∈ L, (today < d ∧ d < today + n + 1) ∧ d % 7 < 5 ∧
      ∃ slots, get_available_slots (f d) 30 9 17 = some slots ∧ slots ≠ [] := by
  unfold get_available_dates at h
  rcases hloop : datesLoop today f (List.range' 1 n) with _ | ds
  · rw [hloop] at h
    simp at h
  · rw [hloop] at h
    simp only [Option.map_some', Option.some.injEq] at h
    subst h
    constructor
    · rw [List.length_take]
      exact Nat.min_le_left _ _
    · intro d hd
      have hd2 : d ∈ ds := List.take_subset _ _ hd
      obtain ⟨⟨k, hk, rfl⟩, hw, hs⟩ := datesLoop_sound today f _ ds hloop _ hd2
      have hr := List.mem_range'_1.mp hk
      exact ⟨⟨by omega, by omega⟩, hw, hs⟩

/-- Witness for C4 at an empty schedule: with reference day 0 (a Monday)
and a 7-day horizon the search returns days [1, 2, 3], and day 1 is inside
the horizon, on a weekday, with the cap respected. -/
theorem available_dates_bounds_witness :
    ((1 : Nat) < 0 + 7 + 1) ∧ (1 : Nat) % 7 < 5 ∧
      ([1, 2, 3] : List Nat).length ≤ 3 := by
  have h := available_dates_bounds 0 noEvents 7 [1, 2, 3] (by decide)
  exact ⟨(h.2 1 (by decide)).1.2, (h.2 1 (by decide)).2.1, h.1⟩

/-- C6: whatever the prior state, a message whose trimmed lowercased form
is a reset keyword stores a fresh MENU session, returns the fixed menu
response listing the two service options and the office-hours option, and
re-sending the keyword returns the identical response and leaves the same
stored session. -/
theorem reset_keyword_idempotent (cal : Calendar) (st : HState) (c m : String)
    (h : pyLower (pyStrip m) ∈ keywords) :
    (process_message cal st c m).2 = show_main_menu ∧
    show_main_menu = Response.sendButtons Body.mainMenu
      [⟨"appointment_1", "Consulta Geral"⟩,
       ⟨"appointment_2", "Consulta Especializada"⟩,
       ⟨"office_hours", "Horário de Atendimento"⟩] ∧
    (process_message cal st c m).1.conversations c = some defaultSession ∧
    defaultSession.step = Step.menu ∧
    (process_message cal (process_message cal st c m).1 c m).2 =
      (process_message cal st c m).2 ∧
    (process_message cal (process_message cal st c m).1 c m).1.conversations c =
      (process_message cal st c m).1.conversations c := by
  refine ⟨?_, rfl, ?_, rfl, ?_, ?_⟩ <;> simp [process_message, h, setConv]

/-- Witness for C6: on the fresh state, the keyword "menu" yields the menu
response. -/
theorem reset_keyword_idempotent_witness :
    (process_message calW emptyHState "c" "menu").2 = show_main_menu :=
  (reset_keyword_idempotent calW emptyHState "c" "menu" (by decide)).1

/-- C9 counterexample: a first message that is neither a reset keyword nor
a recognized option ("xyz" from the unseen caller "c" on the empty store)
is answered without creating any session entry, refuting unconditional
lazy creation on first message. -/
theorem first_message_no_entry :
    emptyHState.conversations "c" = none ∧
    (process_message calW emptyHState "c" "xyz").1.conversations "c" = none :=
  ⟨rfl, rfl⟩

/-- C9 amended: after an unseen caller's first message, a session entry
exists iff the message was a reset keyword or its index-map resolution is
one of the two service options; office-hours and unrecognized first
messages leave the store without an entry (the caller is still treated as
being at MENU by the lookup default). -/
theorem session_created_iff (cal : Calendar) (st : HState) (c m : String)
    (h : st.conversations c = none) :
    ((process_message cal st c m).1.conversations c).isSome = true ↔
      (pyLower (pyStrip m) ∈ keywords ∨
       st.button_mappings c (pyLower (pyStrip m)) = some "appointment_1" ∨
       st.button_mappings c (pyLower (pyStrip m)) = some "appointment_2") := by
  by_cases hk : pyLower (pyStrip m) ∈ keywords
  · simp [process_message, hk, setConv]
  · by_cases h1 : st.button_mappings c (pyLower (pyStrip m)) = some "appointment_1"
    · simp [process_message, hk, h, handle_main_menu, h1, setConv, defaultSession]
    · by_cases h2 : st.button_mappings c (pyLower (pyStrip m)) = some "appointment_2"
      · simp [process_message, hk, h, handle_main_menu, h1, h2, setConv,
          defaultSession]
      · by_cases h3 : st.button_mappings c (pyLower (pyStrip m)) = some "office_hours"
        · simp [process_message, hk, h, handle_main_menu, h1, h2, h3, setConv,
            defaultSession]
        · simp [process_message, hk, h, handle_main_menu, h1, h2, h3, setConv,
            defaultSession]

/-- Witness for the amended C9: the keyword "menu" from an unseen caller
does create the entry. -/
theorem session_created_iff_witness :
    ((process_message calW emptyHState "c" "menu").1.conversations "c").isSome
      = true :=
  (session_created_iff calW emptyHState "c" "menu" rfl).mpr (Or.inl (by decide))

/-- C10: at date selection and at time selection, an inbound message (not a
reset keyword) whose resolution yields no index, or an index absent from
the session's offered mapping, is answered with the corrective prompt and
the whole handler state — in particular every session field — is returned
unchanged. -/
theorem invalid_selection_atomic :
    (∀ (cal : Calendar) (st : HState) (c m : String) (sess : Session),
      st.conversations c = some sess →
      sess.step = Step.select_date →
      pyLower (pyStrip m) ∉ keywords →
      (∀ idx, date_idx_of (st.button_mappings c (pyLower (pyStrip m)))
          (pyLower (pyStrip m)) = some idx →
        lookupIdx sess.available_dates idx = none) →
      process_message cal st c m = (st, Response.sendText Body.chooseValidDate)) ∧
    (∀ (cal : Calendar) (st : HState) (c m : String) (sess : Session),
      st.conversations c = some sess →
      sess.step = Step.select_time →
      pyLower (pyStrip m) ∉ keywords →
      (∀ idx, time_idx_of (st.button_mappings c (pyLower (pyStrip m)))
          (pyLower (pyStrip m)) = some idx →
        lookupIdx sess.available_times idx = none) →
      process_message cal st c m = (st, Response.sendText Body.chooseValidTime)) := by
  constructor
  · intro cal st c m sess hs hstep hk hres
    simp only [process_message, if_neg hk, hs, Option.getD_some, hstep,
      handle_date_selection]
    rcases hidx : date_idx_of (st.button_mappings c (pyLower (pyStrip m)))
        (pyLower (pyStrip m)) with _ | idx
    · simp [hidx]
    · simp [hidx, hres idx hidx]
  · intro cal st c m sess hs hstep hk hres
    simp only [process_message, if_neg hk, hs, Option.getD_some, hstep,
      handle_time_selection]
    rcases hidx : time_idx_of (st.button_mappings c (pyLower (pyStrip m)))
        (pyLower (pyStrip m)) with _ | idx
    · simp [hidx]
    · simp [hidx, hres idx hidx]

/-- Witness for C10: at date selection the numeral "9" (no map entry, not
an offered index) and at time selection the text "x" (no index at all) are
both answered with the corrective prompt and no state change. -/
theorem invalid_selection_atomic_witness :
    process_message calW stDate "c" "9" =
      (stDate, Response.sendText Body.chooseValidDate) ∧
    process_message calW stTime "c" "x" =
      (stTime, Response.sendText Body.chooseValidTime) :=
  ⟨invalid_selection_atomic.1 calW stDate "c" "9" sessDate rfl rfl (by decide)
      (fun idx h => by
        have h2 : idx = "9" := by
          have h3 : some "9" = some idx := h
          exact (Option.some.injEq _ _ ▸ h3).symm
        rw [h2]
        rfl),
    invalid_selection_atomic.2 calW stTime "c" "x" sessTime rfl rfl (by decide)
      (fun idx h => by
        exact Option.noConfusion h)⟩

/-- C5: the selection at date-selection resolves by first checking the
recovered button id for the `date_` prefix (taking the digit after the
underscore), and only otherwise accepting an all-digit message as the
index; in particular the numeral "1" with a prior index map sending "1" to
`date_1` selects the date offered under "1" and advances the step to time
selection. -/
theorem date_index_resolution :
    (∀ bid m2 : String,
      date_idx_of (some bid) m2 =
        if pyStartsWith bid "date_" then some ((pySplit '_' bid).getD 1 "")
        else if pyIsDigit m2 then some m2 else none) ∧
    (∀ m2 : String,
      date_idx_of none m2 = if pyIsDigit m2 then some m2 else none) ∧
    (∀ (cal : Calendar) (st : HState) (c m : String) (sess : Session) (d : Nat),
      st.conversations c = some sess →
      sess.step = Step.select_date →
      pyLower (pyStrip m) = "1" →
      st.button_mappings c "1" = some "date_1" →
      lookupIdx sess.available_dates "1" = some d →
      (((process_message cal st c m).1.conversations c).getD
          defaultSession).step = Step.select_time ∧
      (((process_message cal st c m).1.conversations c).getD
          defaultSession).selected_date = some d) := by
  refine ⟨fun bid m2 => rfl, fun m2 => rfl, ?_⟩
  intro cal st c m sess d hs hstep hm hbm hlook
  have hk : ("1" : String) ∉ keywords := by decide
  have hidx : date_idx_of (some "date_1") "1" = some "1" := by decide
  simp only [process_message, hm, hbm]
  rw [if_neg hk]
  simp only [hs, Option.getD_some, hstep, handle_date_selection, hidx, hlook]
  rcases hsl : cal.slots_outcome d with _ | l
  · simp [hsl, setConv]
  · cases l with
    | nil => simp [hsl, setConv]
    | cons t ts => simp [hsl, setConv]

/-- Witness for C5: on the concrete state offering day 7 under index "1"
with the index map sending "1" to `date_1`, the message "1" advances to
time selection with day 7 selected. -/
theorem date_index_resolution_witness :
    (((process_message calW stDate "c" "1").1.conversations "c").getD
        defaultSession).step = Step.select_time ∧
    (((process_message calW stDate "c" "1").1.conversations "c").getD
        defaultSession).selected_date = some 7 :=
  date_index_resolution.2.2 calW stDate "c" "1" sessDate 7 rfl rfl rfl rfl rfl


/-- C3: one call of the dialogue state machine leaves the caller's stored
step unchanged, advances it exactly one position along
MENU, AWAITING-NAME, SELECT-DATE, SELECT-TIME, CONFIRM, or resets it to
MENU; no other transition is produced. -/
theorem step_transitions_chain (cal : Calendar) (st : HState) (c m : String) :
    (((process_message cal st c m).1.conversations c).getD defaultSession).step
        = ((st.conversations c).getD defaultSession).step ∨
    stepIdx ((((process_message cal st c m).1.conversations c).getD
        defaultSession).step)
      = stepIdx (((st.conversations c).getD defaultSession).step) + 1 ∨
    (((process_message cal st c m).1.conversations c).getD
        defaultSession).step = Step.menu := by
  by_cases hk : pyLower (pyStrip m) ∈ keywords
  · right
    right
    simp [process_message, hk, setConv, defaultSession]
  · simp only [process_message, if_neg hk]
    cases hstep : ((st.conversations c).getD defaultSession).step with
    | menu =>
      simp only [handle_main_menu]
      by_cases h1 : st.button_mappings c (pyLower (pyStrip m)) = some "appointment_1"
          ∨ st.button_mappings c (pyLower (pyStrip m)) = some "appointment_2"
      · rw [if_pos h1]
        right
        left
        simp [setConv, stepIdx]
      · rw [if_neg h1]
        by_cases h2 : st.button_mappings c (pyLower (pyStrip m)) = some "office_hours"
        · rw [if_pos h2]
          exact Or.inl hstep
        · rw [if_neg h2]
          exact Or.inl hstep
    | get_patient_name =>
      simp only [handle_patient_name]
      rcases hda : cal.dates_outcome with _ | l
      · right
        left
        simp [setConv, stepIdx]
      · cases l with
        | nil =>
          right
          left
          simp [setConv, stepIdx]
        | cons d ds =>
          right
          left
          simp [setConv, stepIdx]
    | select_date =>
      simp only [handle_date_selection]
      rcases hidx : date_idx_of (st.button_mappings c (pyLower (pyStrip m)))
          (pyLower (pyStrip m)) with _ | idx
      · exact Or.inl hstep
      · rcases hlook : lookupIdx ((st.conversations c).getD
            defaultSession).available_dates idx with _ | sel
        · simp only [hlook]
          exact Or.inl hstep
        · simp only [hlook]
          rcases hsl : cal.slots_outcome sel with _ | l
          · right
            left
            simp [setConv, stepIdx]
          · cases l with
            | nil =>
              right
              left
              simp [setConv, stepIdx]
            | cons t ts =>
              right
              left
              simp [setConv, stepIdx]
    | select_time =>
      simp only [handle_time_selection]
      rcases hidx : time_idx_of (st.button_mappings c (pyLower (pyStrip m)))
          (pyLower (pyStrip m)) with _ | idx
      · exact Or.inl hstep
      · rcases hlook : lookupIdx ((st.conversations c).getD
            defaultSession).available_times idx with _ | sel
        · simp only [hlook]
          exact Or.inl hstep
        · simp only [hlook]
          right
          left
          simp [setConv, stepIdx]
    | confirm =>
      simp only [handle_confirmation]
      by_cases h1 : st.button_mappings c (pyLower (pyStrip m)) = some "confirm_yes"
          ∨ pyLower (pyStrip m) = "1"
      · rw [if_pos h1]
        rcases hins : cal.insert_outcome (((st.conversations c).getD
              defaultSession).patient_name.getD "") c
            (((st.conversations c).getD defaultSession).appointment_name.getD "")
            (((st.conversations c).getD defaultSession).selected_time.getD 0)
            with _ | ev
        · exact Or.inl hstep
        · right
          right
          simp [setConv]
      · rw [if_neg h1]
        by_cases h2 : st.button_mappings c (pyLower (pyStrip m)) = some "confirm_no"
        · rw [if_pos h2]
          right
          right
          simp [setConv]
        · rw [if_neg h2]
          exact Or.inl hstep

end ClinicaBot
